import Mathlib

/-!
Shallow embedding of the `growlf/intro_to_containers` demo service.

The canonical variant (`src/app.py`) exposes CRUD handlers over two
SQLite-backed tables, `customers` and `orders`.  We model the database
as lists of records kept in insertion (rowid) order; SQLite assigns a
new `INTEGER PRIMARY KEY` as one greater than the largest id in the
table, which `freshCustomerId` / `freshOrderId` reproduce.  Each
handler opens a session, runs one query or mutation and returns the
result, so the embedding is a pure function from the store (and the
request arguments) to the response and the new store.  Decimal order
costs are modelled by rationals; a handler raising `HTTPException 404`
is modelled by `Except.error (ApiError.notFound detail)`.
-/

set_option autoImplicit false

namespace IntroApp

/-- Input shape for customer creation (`CustomerBase`, src/app.py lines 33-38). -/
structure CustomerBase where
  name : String
  address : String
  email : String
deriving DecidableEq, Repr

/-- Persisted customer row (`Customer`, src/app.py lines 40-43).  The
`orders` relationship is derived, not stored: it is the set of order rows
whose `customer_id` equals this row's `id`. -/
structure Customer where
  id : Int
  name : String
  address : String
  email : String
deriving DecidableEq, Repr

/-- Input shape for order creation (`OrderBase`, src/app.py lines 26-31). -/
structure OrderBase where
  name : String
  cost : Rat
  customer_id : Int
deriving DecidableEq, Repr

/-- Persisted order row (`Order`, src/app.py lines 45-49). -/
structure Order where
  id : Int
  name : String
  cost : Rat
  customer_id : Int
deriving DecidableEq, Repr

/-- Read shape returned by `get-customer-with-orders` (`CustomerRead`,
src/app.py lines 51-52): the customer's base fields plus the eagerly
loaded related orders. -/
structure CustomerRead where
  name : String
  address : String
  email : String
  orders : List Order
deriving DecidableEq, Repr

/-- An application-level error surfaced by a handler (`HTTPException`
with status 404 in the source). -/
inductive ApiError where
  | notFound (detail : String)
deriving DecidableEq, Repr

/-- The state of the in-memory SQLite database: both tables, rows in
insertion order. -/
structure Store where
  customers : List Customer
  orders : List Order
deriving DecidableEq, Repr

/-- Largest id present, taken as 0 for an empty table.  SQLite assigns the
next inserted row one more than the largest existing rowid, with no clamping
at zero (a table whose only row has id -5 hands out -4 next), and 1 only
when the table is empty. -/
def maxId : List Int → Int
  | [] => 0
  | [x] => x
  | x :: y :: xs => max x (maxId (y :: xs))

/-- The id SQLite assigns to the next customer row: largest stored id + 1
(1 for an empty table). -/
def freshCustomerId (s : Store) : Int := maxId (s.customers.map Customer.id) + 1

/-- The id SQLite assigns to the next order row: largest stored id + 1
(1 for an empty table). -/
def freshOrderId (s : Store) : Int := maxId (s.orders.map Order.id) + 1

/-- `GET /get-customers/` (src/app.py lines 100-111): scan the customer
table, skip `offset` rows, and if `limit` is absent or 0 return the rest,
otherwise at most `limit` rows (`offset = offset or 0`, `limit = limit or 0`,
unlimited branch when `limit == 0`). -/
def get_customers (s : Store) (offset limit : Option Nat) : List Customer :=
  let o := offset.getD 0
  let l := limit.getD 0
  if l = 0 then s.customers.drop o
  else (s.customers.drop o).take l

/-- `GET /get-customer-by-id/{id}` (src/app.py lines 113-120): point
lookup by primary key, 404 when absent. -/
def get_customer_by_id (s : Store) (id : Int) : Except ApiError Customer :=
  match s.customers.find? (fun c => c.id == id) with
  | some c => .ok c
  | none => .error (.notFound "Customer not found")

/-- `POST /create-customer/` (src/app.py lines 122-129): build a customer
from the validated base payload, insert it (SQLite assigns the id), and
return the refreshed row. -/
def create_customer (s : Store) (base : CustomerBase) : Customer × Store :=
  let c : Customer :=
    { id := freshCustomerId s, name := base.name
      address := base.address, email := base.email }
  (c, { s with customers := s.customers ++ [c] })

/-- `Session.merge` on one table: when some row matches the payload's key
(`p`), overwrite it with the payload row; otherwise insert the payload row.
The key predicate `p` is "has the payload's primary key". -/
def mergeRow {α : Type} (p : α → Bool) (c : α) (l : List α) : List α :=
  if l.any p then l.map (fun old => if p old then c else old)
  else l ++ [c]

/-- `PUT /update-customer/` (src/app.py lines 131-137): `sesh.merge`
upserts the full payload keyed by its id (overwrite when a row with that
id exists, insert otherwise), then the handler re-reads the row by id and
returns it. -/
def update_customer (s : Store) (c : Customer) : Option Customer × Store :=
  let customers' := mergeRow (fun old => old.id == c.id) c s.customers
  (customers'.find? (fun old => old.id == c.id), { s with customers := customers' })

/-- `GET /get-orders/` (src/app.py lines 139-144): scan all order rows. -/
def get_orders (s : Store) : List Order := s.orders

/-- `GET /get-order-by-id/` (src/app.py lines 146-153): point lookup by
primary key, 404 when absent. -/
def get_order_by_id (s : Store) (id : Int) : Except ApiError Order :=
  match s.orders.find? (fun o => o.id == id) with
  | some o => .ok o
  | none => .error (.notFound "Order not found")

/-- `POST /create-order/` (src/app.py lines 155-162): build an order from
the base payload and insert it.  The handler performs no check that
`customer_id` references an existing customer, and the engine's foreign
key enforcement is off by default in this configuration, so the insert
always succeeds. -/
def create_order (s : Store) (base : OrderBase) : Order × Store :=
  let o : Order :=
    { id := freshOrderId s, name := base.name
      cost := base.cost, customer_id := base.customer_id }
  (o, { s with orders := s.orders ++ [o] })

/-- `PUT /update-order/` (src/app.py lines 164-170): same merge-upsert
semantics as `update_customer`, on the order table. -/
def update_order (s : Store) (o : Order) : Option Order × Store :=
  let orders' := mergeRow (fun old => old.id == o.id) o s.orders
  (orders'.find? (fun old => old.id == o.id), { s with orders := orders' })

/-- `GET /get-orders-by-customer-id/` (src/app.py lines 172-177): filter
the order table on `customer_id == id`. -/
def get_customer_orders (s : Store) (id : Int) : List Order :=
  s.orders.filter (fun o => o.customer_id == id)

/-- `GET /get-customer-with-orders/{id}` (src/app.py lines 179-184):
select the customer with the given id, eagerly loading its `orders`
relationship (the order rows whose `customer_id` equals the customer's
id); `first()` yields `None` when no row matches and the handler returns
it without raising. -/
def get_customer_with_orders (s : Store) (id : Int) : Option CustomerRead :=
  (s.customers.find? (fun c => c.id == id)).map (fun c =>
    { name := c.name, address := c.address, email := c.email
      orders := s.orders.filter (fun o => o.customer_id == c.id) })

namespace Copiloting

/-- Input shape of the path-parameter variant (`CustomerBase`,
src/copiloting.py lines 6-8): no address field. -/
structure CustomerBase where
  name : String
  email : String
deriving DecidableEq, Repr

/-- Persisted customer row of the path-parameter variant (`Customer`,
src/copiloting.py lines 10-11). -/
structure Customer where
  id : Int
  name : String
  email : String
deriving DecidableEq, Repr

/-- Overwrite the payload fields (`name`, `email`) of a stored row,
keeping its id — the `setattr` loop over `customer.dict().items()`
in src/copiloting.py lines 56-57. -/
def applyBase (b : CustomerBase) (c : Customer) : Customer :=
  { id := c.id, name := b.name, email := b.email }

/-- Locate the row with the given primary key and overwrite its payload
fields in place, returning the refreshed row and the new table; `none`
when no row matches. -/
def updateFirst (cid : Int) (b : CustomerBase) :
    List Customer → Option (Customer × List Customer)
  | [] => none
  | c :: rest =>
    if c.id == cid then some (applyBase b c, applyBase b c :: rest)
    else (updateFirst cid b rest).map (fun p => (p.1, c :: p.2))

/-- `PUT /customers/{customer_id}` (src/copiloting.py lines 51-61): look
up the row by primary key, 404 when absent (table untouched); otherwise
set `name` and `email` from the payload, commit, and return the
refreshed row. -/
def update_customer (cs : List Customer) (cid : Int) (b : CustomerBase) :
    Except ApiError Customer × List Customer :=
  match updateFirst cid b cs with
  | none => (.error (.notFound "Customer not found"), cs)
  | some p => (.ok p.1, p.2)

end Copiloting

/-! Concrete sample data, used to evaluate the handlers on closed inputs. -/

def mkCustomer (n : Int) : Customer :=
  { id := n, name := "Customer " ++ toString n
    address := "1 Main St", email := "customer@example.com" }

def mkOrder (n cid : Int) : Order :=
  { id := n, name := "Order " ++ toString n, cost := 5, customer_id := cid }

def sampleStore : Store :=
  { customers := [mkCustomer 1, mkCustomer 2]
    orders := [mkOrder 1 1, mkOrder 2 1, mkOrder 3 2] }

def fiveStore : Store :=
  { customers := [mkCustomer 1, mkCustomer 2, mkCustomer 3, mkCustomer 4, mkCustomer 5]
    orders := [] }

def sampleBase : CustomerBase :=
  { name := "New Name", address := "2 Main St", email := "new@example.com" }

def sampleOrderBase : OrderBase :=
  { name := "New Order", cost := 7, customer_id := 999 }

/-- A full customer payload carrying a client-chosen negative id; `id: int`
passes validation, so the merge upsert inserts it. -/
def negCustomer : Customer :=
  { id := -5, name := "Neg", address := "0 Main St", email := "neg@example.com" }

/-- Store whose only customer row has id -5 — reachable from the empty store
via `PUT /update-customer/` with `negCustomer` as payload. -/
def negStore : Store := { customers := [negCustomer], orders := [] }

def copStore : List Copiloting.Customer :=
  [{ id := 1, name := "Ann", email := "ann@example.com" },
   { id := 2, name := "Ben", email := "ben@example.com" }]

def copBase : Copiloting.CustomerBase :=
  { name := "Anna", email := "anna@example.com" }

/-! Helper lemmas about `mergeRow` and list scans. -/

lemma find?_append_singleton {α : Type} (p : α → Bool) (c : α) (l : List α)
    (hl : ∀ x ∈ l, p x = false) (hc : p c = true) :
    (l ++ [c]).find? p = some c := by
  induction l with
  | nil => simp [List.find?, hc]
  | cons y ys ih =>
      have hy : p y = false := hl y (by simp)
      rw [List.cons_append, List.find?_cons_of_neg _ (by simp [hy])]
      exact ih (fun x hx => hl x (by simp [hx]))

lemma find?_overwrite {α : Type} (p : α → Bool) (c : α) (hc : p c = true)
    (l : List α) (h : l.any p = true) :
    (l.map (fun y => if p y then c else y)).find? p = some c := by
  induction l with
  | nil => simp at h
  | cons y ys ih =>
      by_cases hy : p y = true
      · rw [List.map_cons, if_pos hy, List.find?_cons_of_pos _ hc]
      · have hy' : p y = false := by simpa using hy
        rw [List.map_cons, if_neg (by simp [hy']),
          List.find?_cons_of_neg _ (by simp [hy'])]
        exact ih (by simpa [hy'] using h)

lemma mem_overwrite {α : Type} (p : α → Bool) (c : α) (l : List α) (x : α)
    (hx : x ∈ l.map (fun y => if p y then c else y)) (hpx : p x = true) :
    x = c := by
  rcases List.mem_map.mp hx with ⟨y, _, hyx⟩
  by_cases hy : p y = true
  · rw [if_pos hy] at hyx; exact hyx.symm
  · rw [if_neg hy] at hyx; exact absurd (hyx ▸ hpx) hy

lemma overwrite_eq_self {α : Type} (p : α → Bool) (c : α) (l : List α)
    (h : ∀ x ∈ l, p x = true → x = c) :
    l.map (fun y => if p y then c else y) = l := by
  induction l with
  | nil => rfl
  | cons y ys ih =>
      rw [List.map_cons, ih (fun x hx => h x (by simp [hx]))]
      by_cases hy : p y = true
      · rw [if_pos hy, h y (by simp) hy]
      · rw [if_neg hy]

lemma mergeRow_mem_key {α : Type} (p : α → Bool) (c : α) (l : List α) (x : α)
    (hx : x ∈ mergeRow p c l) (hpx : p x = true) : x = c := by
  unfold mergeRow at hx
  by_cases hany : l.any p = true
  · rw [if_pos hany] at hx; exact mem_overwrite p c l x hx hpx
  · rw [if_neg hany] at hx
    rcases List.mem_append.mp hx with hx' | hx'
    · have := List.any_eq_true.mpr ⟨x, hx', hpx⟩
      exact absurd this hany
    · simpa using hx'

lemma mergeRow_any {α : Type} (p : α → Bool) (c : α) (hc : p c = true)
    (l : List α) : (mergeRow p c l).any p = true := by
  unfold mergeRow
  by_cases hany : l.any p = true
  · rw [if_pos hany]
    rcases List.any_eq_true.mp hany with ⟨x, hx, hpx⟩
    refine List.any_eq_true.mpr ⟨c, ?_, hc⟩
    exact List.mem_map.mpr ⟨x, hx, by simp [hpx]⟩
  · rw [if_neg hany]
    exact List.any_eq_true.mpr ⟨c, by simp, hc⟩

lemma mergeRow_idem {α : Type} (p : α → Bool) (c : α) (hc : p c = true)
    (l : List α) : mergeRow p c (mergeRow p c l) = mergeRow p c l := by
  have hany := mergeRow_any p c hc l
  rw [mergeRow, if_pos hany]
  exact overwrite_eq_self p c _ (mergeRow_mem_key p c l)

lemma find?_mergeRow {α : Type} (p : α → Bool) (c : α) (hc : p c = true)
    (l : List α) : (mergeRow p c l).find? p = some c := by
  unfold mergeRow
  by_cases hany : l.any p = true
  · rw [if_pos hany]; exact find?_overwrite p c hc l hany
  · rw [if_neg hany]
    refine find?_append_singleton p c l ?_ hc
    intro x hx
    by_contra hpx
    exact hany (List.any_eq_true.mpr ⟨x, hx, by simpa using hpx⟩)

/-! Claim theorems. -/

/-- C1: an update-customer request carrying a full `Customer` payload with an
id upserts, keyed on that id: when no stored row has the id, the payload row
is inserted; when rows with the id exist, each is overwritten with the payload
while every other row is kept unchanged (pointwise) and the table keeps its
length; the order table is untouched; and the handler returns the updated row
as re-read from the store — it never reports a not-found error. -/
theorem update_customer_upserts (s : Store) (c : Customer) :
    (update_customer s c).1 = some c
    ∧ ((∀ old ∈ s.customers, old.id ≠ c.id) →
        (update_customer s c).2.customers = s.customers ++ [c])
    ∧ ((∃ old ∈ s.customers, old.id = c.id) →
        (update_customer s c).2.customers.length = s.customers.length
        ∧ ∀ i old, s.customers.get? i = some old →
            (update_customer s c).2.customers.get? i
              = some (if old.id = c.id then c else old))
    ∧ (update_customer s c).2.orders = s.orders := by
  have hpc : (fun old : Customer => old.id == c.id) c = true := by simp
  refine ⟨find?_mergeRow _ c hpc s.customers, ?_, ?_, rfl⟩
  · intro h
    have hany : s.customers.any (fun old => old.id == c.id) = false := by
      rw [List.any_eq_false]
      intro x hx
      simpa using h x hx
    show mergeRow (fun old => old.id == c.id) c s.customers = s.customers ++ [c]
    rw [mergeRow, if_neg (by simp [hany])]
  · rintro ⟨old0, hmem, hid⟩
    have hany : s.customers.any (fun old => old.id == c.id) = true :=
      List.any_eq_true.mpr ⟨old0, hmem, by simp [hid]⟩
    constructor
    · show (mergeRow (fun old => old.id == c.id) c s.customers).length = _
      rw [mergeRow, if_pos hany, List.length_map]
    · intro i old hi
      show (mergeRow (fun old => old.id == c.id) c s.customers).get? i = _
      rw [mergeRow, if_pos hany, List.get?_map, hi]
      by_cases h : old.id = c.id <;> simp [h]

/-- C1 witness: in the sample store, merging a payload with the fresh id 7
inserts it (store held no row with id 7), and the handler returns it. -/
theorem update_customer_upserts_witness :
    (update_customer sampleStore (mkCustomer 7)).2.customers
        = sampleStore.customers ++ [mkCustomer 7]
    ∧ (update_customer sampleStore (mkCustomer 7)).1 = some (mkCustomer 7) :=
  ⟨(update_customer_upserts sampleStore (mkCustomer 7)).2.1 (by decide),
   (update_customer_upserts sampleStore (mkCustomer 7)).1⟩

/-- C6: applying `update-customer` (resp. `update-order`) twice with the same
full payload yields the same stored state as applying it once — the
merge-based updates are idempotent. -/
theorem update_merge_idempotent (s : Store) (c : Customer) (o : Order) :
    (update_customer (update_customer s c).2 c).2 = (update_customer s c).2
    ∧ (update_order (update_order s o).2 o).2 = (update_order s o).2 := by
  constructor
  · exact congrArg (fun l => Store.mk l s.orders)
      (mergeRow_idem _ c (by simp) s.customers)
  · exact congrArg (fun l => Store.mk s.customers l)
      (mergeRow_idem _ o (by simp) s.orders)

/-- C2: for every customer id present in the store, the record returned by
get-customer-with-orders has an embedded orders collection equal to the
result of get-orders-by-customer-id for the same id over the same store. -/
theorem customer_with_orders_matches_orders_query (s : Store) (id : Int)
    (h : ∃ c ∈ s.customers, c.id = id) :
    ∃ r, get_customer_with_orders s id = some r
      ∧ r.orders = get_customer_orders s id := by
  rcases h with ⟨c0, hmem, hid⟩
  obtain ⟨c1, hf⟩ : ∃ c1, s.customers.find? (fun c => c.id == id) = some c1 := by
    cases hf : s.customers.find? (fun c => c.id == id) with
    | some c1 => exact ⟨c1, rfl⟩
    | none =>
        rw [List.find?_eq_none] at hf
        exact absurd (by simp [hid]) (hf c0 hmem)
  have hc1 : c1.id = id := by simpa using List.find?_some hf
  refine ⟨{ name := c1.name, address := c1.address, email := c1.email
            orders := s.orders.filter (fun o => o.customer_id == c1.id) }, ?_, ?_⟩
  · rw [get_customer_with_orders, hf]
    rfl
  · show s.orders.filter (fun o => o.customer_id == c1.id)
        = get_customer_orders s id
    rw [get_customer_orders, hc1]

/-- C2 witness: in the sample store, customer 1 exists and the embedded
orders of `get_customer_with_orders` agree with `get_customer_orders`. -/
theorem customer_with_orders_matches_orders_query_witness :
    ∃ r, get_customer_with_orders sampleStore 1 = some r
      ∧ r.orders = get_customer_orders sampleStore 1 :=
  customer_with_orders_matches_orders_query sampleStore 1
    ⟨mkCustomer 1, by simp [sampleStore], rfl⟩

/-- C4: for an id with no stored customer, get-customer-with-orders returns
the empty result `none`; its result type shows it raises no error. -/
theorem customer_with_orders_absent_none (s : Store) (id : Int)
    (h : ∀ c ∈ s.customers, c.id ≠ id) :
    get_customer_with_orders s id = none := by
  have hf : s.customers.find? (fun c => c.id == id) = none := by
    rw [List.find?_eq_none]
    intro x hx
    simp [h x hx]
  rw [get_customer_with_orders, hf]
  rfl

/-- C4 witness: id 999 is absent from the sample store and the handler
returns the empty result. -/
theorem customer_with_orders_absent_none_witness :
    get_customer_with_orders sampleStore 999 = none :=
  customer_with_orders_absent_none sampleStore 999 (by decide)

/-- C5: get-customer-by-id returns a stored record carrying the requested id
whenever it answers `ok`, and fails with the 404 not-found error exactly when
no stored record has that id. -/
theorem get_customer_by_id_spec (s : Store) (id : Int) :
    (get_customer_by_id s id = .error (.notFound "Customer not found")
       ↔ ∀ c ∈ s.customers, c.id ≠ id)
    ∧ ∀ c, get_customer_by_id s id = .ok c → c ∈ s.customers ∧ c.id = id := by
  constructor
  · constructor
    · intro h c hc hid
      cases hf : s.customers.find? (fun x => x.id == id) with
      | some c1 => rw [get_customer_by_id, hf] at h; simp at h
      | none =>
          rw [List.find?_eq_none] at hf
          exact hf c hc (by simp [hid])
    · intro h
      have hf : s.customers.find? (fun x => x.id == id) = none := by
        rw [List.find?_eq_none]
        intro x hx
        simp [h x hx]
      rw [get_customer_by_id, hf]
  · intro c h
    cases hf : s.customers.find? (fun x => x.id == id) with
    | none => rw [get_customer_by_id, hf] at h; simp at h
    | some c1 =>
        rw [get_customer_by_id, hf] at h
        injection h with h1
        subst h1
        exact ⟨List.mem_of_find?_eq_some hf, by simpa using List.find?_some hf⟩

/-- C5 witness: in the sample store, id 999 (never issued) yields the 404
error, while the lookup that answers `ok` returns a stored record with the
requested id. -/
theorem get_customer_by_id_spec_witness :
    get_customer_by_id sampleStore 999 = .error (.notFound "Customer not found")
    ∧ (mkCustomer 1 ∈ sampleStore.customers ∧ (mkCustomer 1).id = 1) :=
  ⟨(get_customer_by_id_spec sampleStore 999).1.mpr (by decide),
   (get_customer_by_id_spec sampleStore 1).2 (mkCustomer 1) rfl⟩

/-- C9: get-orders-by-customer-id returns exactly the stored orders whose
customer_id equals the input, as a subsequence of the order table; when no
stored order references the id — in particular when the customer is absent
or has no orders — it returns the empty sequence; its result type shows it
never fails with an error. -/
theorem get_customer_orders_spec (s : Store) (id : Int) :
    (∀ o, o ∈ get_customer_orders s id ↔ o ∈ s.orders ∧ o.customer_id = id)
    ∧ List.Sublist (get_customer_orders s id) s.orders
    ∧ ((∀ o ∈ s.orders, o.customer_id ≠ id) → get_customer_orders s id = []) := by
  refine ⟨?_, List.filter_sublist _, ?_⟩
  · intro o
    rw [get_customer_orders, List.mem_filter]
    simp
  · intro h
    rw [get_customer_orders, List.filter_eq_nil]
    intro o ho
    simp [h o ho]

/-- C9 witness: id 42 references no stored order and yields the empty
sequence; membership in the result of id 1 matches the filter condition. -/
theorem get_customer_orders_spec_witness :
    get_customer_orders sampleStore 42 = []
    ∧ (mkOrder 1 1 ∈ get_customer_orders sampleStore 1
        ↔ mkOrder 1 1 ∈ sampleStore.orders ∧ (mkOrder 1 1).customer_id = 1) :=
  ⟨(get_customer_orders_spec sampleStore 42).2.2 (by decide),
   (get_customer_orders_spec sampleStore 1).1 (mkOrder 1 1)⟩

/-- C3: for every store state, list-customers scans the customer table in
insertion order, skips the first `offset` rows and returns at most `limit`
rows, a limit of 0 (or an absent limit) meaning unlimited; in particular with
offset 2 and limit 3 over a table holding at least 5 rows it returns exactly
3 rows, the one at position `2 + i` of the table in place `i`. -/
theorem get_customers_paging (s : Store) (off lim i : Nat) :
    ((get_customers s (some off) (some lim)).get? i
        = if lim = 0 ∨ i < lim then s.customers.get? (off + i) else none)
    ∧ get_customers s none none = s.customers
    ∧ (5 ≤ s.customers.length →
        (get_customers s (some 2) (some 3)).length = 3
        ∧ (i < 3 → (get_customers s (some 2) (some 3)).get? i
            = s.customers.get? (2 + i))) := by
  have hmain : ∀ off' lim' i' : Nat, (get_customers s (some off') (some lim')).get? i'
      = if lim' = 0 ∨ i' < lim' then s.customers.get? (off' + i') else none := by
    intro off' lim' i'
    rw [get_customers]
    simp only [Option.getD_some]
    by_cases h0 : lim' = 0
    · rw [if_pos h0, if_pos (Or.inl h0), List.get?_drop]
    · rw [if_neg h0]
      by_cases hi : i' < lim'
      · rw [if_pos (Or.inr hi), List.get?_take hi, List.get?_drop]
      · rw [if_neg (by tauto)]
        refine List.get?_eq_none.mpr ?_
        calc ((s.customers.drop off').take lim').length
            ≤ lim' := by rw [List.length_take]; omega
          _ ≤ i' := by omega
  refine ⟨hmain off lim i, rfl, ?_⟩
  intro h5
  constructor
  · rw [get_customers]
    simp only [Option.getD_some]
    rw [if_neg (by omega), List.length_take, List.length_drop]
    omega
  · intro hi
    rw [hmain 2 3 i, if_pos (Or.inr hi)]

/-- C3 witness: over a table of 5 rows, offset 2 and limit 3 yield 3 rows and
the first returned row is the table's 3rd row. -/
theorem get_customers_paging_witness :
    (get_customers fiveStore (some 2) (some 3)).length = 3
    ∧ (get_customers fiveStore (some 2) (some 3)).get? 0
        = fiveStore.customers.get? 2 :=
  ⟨((get_customers_paging fiveStore 0 0 0).2.2 (by decide)).1,
   ((get_customers_paging fiveStore 0 0 0).2.2 (by decide)).2 (by decide)⟩

lemma le_maxId (ids : List Int) (x : Int) (hx : x ∈ ids) : x ≤ maxId ids := by
  induction ids with
  | nil => simp at hx
  | cons y ys ih =>
      cases ys with
      | nil =>
          rw [List.mem_singleton] at hx
          exact le_of_eq hx
      | cons z zs =>
          rcases List.mem_cons.mp hx with h | h
          · rw [h]
            exact le_max_left y (maxId (z :: zs))
          · exact le_trans (ih h) (le_max_right y (maxId (z :: zs)))

lemma maxId_nonneg_of (ids : List Int) (h : ∀ x ∈ ids, 0 ≤ x) :
    0 ≤ maxId ids := by
  cases ids with
  | nil => exact le_refl 0
  | cons y ys => exact le_trans (h y (by simp)) (le_maxId _ y (by simp))

lemma mergeRow_keeps_ids (l : List Customer) (p : Customer) (old : Customer)
    (hold : old ∈ l) :
    ∃ n ∈ mergeRow (fun x => x.id == p.id) p l, n.id = old.id := by
  unfold mergeRow
  by_cases hany : l.any (fun x => x.id == p.id) = true
  · rw [if_pos hany]
    refine ⟨if old.id == p.id then p else old, List.mem_map_of_mem _ hold, ?_⟩
    by_cases h : old.id = p.id <;> simp [h]
  · rw [if_neg hany]
    exact ⟨old, List.mem_append_left _ hold, rfl⟩

/-- C7: create-customer returns a record whose system-assigned id is
distinct from the id of every previously stored record; reading that id back
from the new store returns the very record; a further create assigns a
different id (no reuse); and a merge update never drops a stored id (after
any update, some row still carries it).  The assigned id is positive
whenever every stored id is nonnegative — which holds for every store built
by create alone, but not for stores reached through the merge upsert with a
client-chosen negative id, where SQLite's unclamped largest-id + 1 rule can
yield a non-positive id. -/
theorem create_customer_id_invariants (s : Store) (b b' : CustomerBase)
    (p : Customer) :
    ((∀ c' ∈ s.customers, 0 ≤ c'.id) → 0 < (create_customer s b).1.id)
    ∧ (∀ c' ∈ s.customers, c'.id ≠ (create_customer s b).1.id)
    ∧ get_customer_by_id (create_customer s b).2 (create_customer s b).1.id
        = .ok (create_customer s b).1
    ∧ (create_customer (create_customer s b).2 b').1.id
        ≠ (create_customer s b).1.id
    ∧ ∀ old ∈ (create_customer s b).2.customers,
        ∃ n ∈ (update_customer (create_customer s b).2 p).2.customers,
          n.id = old.id := by
  have hid : (create_customer s b).1.id = freshCustomerId s := rfl
  have hlt : ∀ c' ∈ s.customers, c'.id < freshCustomerId s := by
    intro c' hc'
    have := le_maxId (s.customers.map Customer.id) c'.id
      (List.mem_map_of_mem Customer.id hc')
    rw [freshCustomerId]
    omega
  refine ⟨?_, ?_, ?_, ?_, ?_⟩
  · intro hnonneg
    show (0 : Int) < freshCustomerId s
    have h0 : 0 ≤ maxId (s.customers.map Customer.id) := by
      refine maxId_nonneg_of _ ?_
      intro x hx
      rcases List.mem_map.mp hx with ⟨c', hc', rfl⟩
      exact hnonneg c' hc'
    rw [freshCustomerId]
    omega
  · intro c' hc'
    exact ne_of_lt (hlt c' hc')
  · have hf : ((create_customer s b).2.customers).find?
        (fun x => x.id == (create_customer s b).1.id)
        = some (create_customer s b).1 := by
      refine find?_append_singleton _ _ s.customers ?_ (by simp [hid])
      intro x hx
      simp [hid, ne_of_lt (hlt x hx)]
    rw [get_customer_by_id, hf]
  · show freshCustomerId (create_customer s b).2 ≠ (create_customer s b).1.id
    have hmem : (create_customer s b).1.id
        ∈ ((create_customer s b).2.customers).map Customer.id :=
      List.mem_map_of_mem Customer.id (by
        show (create_customer s b).1 ∈ s.customers ++ [(create_customer s b).1]
        simp)
    have := le_maxId _ _ hmem
    rw [freshCustomerId]
    omega
  · intro old hold
    exact mergeRow_keeps_ids _ p old hold

/-- C7 witness: creating over the sample store (nonnegative stored ids 1 and
2) assigns a positive fresh id, distinct from stored id 1. -/
theorem create_customer_id_invariants_witness :
    0 < (create_customer sampleStore sampleBase).1.id
    ∧ (mkCustomer 1).id ≠ (create_customer sampleStore sampleBase).1.id :=
  ⟨(create_customer_id_invariants sampleStore sampleBase sampleBase
      (mkCustomer 1)).1 (by decide),
   (create_customer_id_invariants sampleStore sampleBase sampleBase
      (mkCustomer 1)).2.1 (mkCustomer 1) (by simp [sampleStore])⟩

/-- C7 counterexample: over the store whose only customer row has id -5 —
reachable from the empty store through the merge upsert with a client-chosen
negative id — create-customer assigns the id -4, which is not positive. -/
theorem create_customer_positive_id_cex :
    (update_customer { customers := [], orders := [] } negCustomer).2 = negStore
    ∧ (create_customer negStore sampleBase).1.id = -4
    ∧ ¬ 0 < (create_customer negStore sampleBase).1.id :=
  ⟨rfl, rfl, by decide⟩

/-- C8: create-order builds the persisted order from the payload fields and
appends it to the order table, returning it, with no application-layer check
of `customer_id`: even when no stored customer carries the payload's
customer_id, the insert goes through unchanged and nothing is rejected. -/
theorem create_order_unchecked (s : Store) (b : OrderBase)
    (hdangling : ∀ c ∈ s.customers, c.id ≠ b.customer_id) :
    (create_order s b).1.customer_id = b.customer_id
    ∧ (create_order s b).1.name = b.name
    ∧ (create_order s b).1.cost = b.cost
    ∧ (create_order s b).2.orders = s.orders ++ [(create_order s b).1]
    ∧ (create_order s b).2.customers = s.customers :=
  ⟨rfl, rfl, rfl, rfl, rfl⟩

/-- C8 witness: the sample payload's customer_id 999 matches no stored
customer, yet the order is persisted and returned. -/
theorem create_order_unchecked_witness :
    (create_order sampleStore sampleOrderBase).1.customer_id = 999
    ∧ (create_order sampleStore sampleOrderBase).2.orders
        = sampleStore.orders ++ [(create_order sampleStore sampleOrderBase).1] :=
  ⟨(create_order_unchecked sampleStore sampleOrderBase (by decide)).1,
   (create_order_unchecked sampleStore sampleOrderBase (by decide)).2.2.2.1⟩

lemma updateFirst_spec (cid : Int) (b : Copiloting.CustomerBase) :
    ∀ cs : List Copiloting.Customer, (∃ c ∈ cs, c.id = cid) →
      ∃ i c0, cs.get? i = some c0 ∧ c0.id = cid
        ∧ Copiloting.updateFirst cid b cs
            = some (Copiloting.applyBase b c0,
                    cs.set i (Copiloting.applyBase b c0)) := by
  intro cs
  induction cs with
  | nil => rintro ⟨c, hc, _⟩; simp at hc
  | cons y ys ih =>
      rintro ⟨c, hc, hcid⟩
      by_cases hy : y.id = cid
      · exact ⟨0, y, rfl, hy, by simp [Copiloting.updateFirst, hy]⟩
      · have hc' : c ∈ ys := by
          rcases List.mem_cons.mp hc with h | h
          · exact absurd (h ▸ hcid) hy
          · exact h
        rcases ih ⟨c, hc', hcid⟩ with ⟨i, c0, hget, hc0, heq⟩
        exact ⟨i + 1, c0, by simpa using hget, hc0,
          by simp [Copiloting.updateFirst, hy, heq]⟩

/-- C10: in the path-parameter variant, updating an existing customer id with
a base payload overwrites exactly the payload fields (name, email) of the
stored row at that id — the row keeps its id — while every other row of the
table is unchanged, and the refreshed row is returned. -/
theorem cop_update_customer_frame (cs : List Copiloting.Customer) (cid : Int)
    (b : Copiloting.CustomerBase) (h : ∃ c ∈ cs, c.id = cid) :
    ∃ i c0, cs.get? i = some c0 ∧ c0.id = cid
      ∧ (Copiloting.update_customer cs cid b).1
          = .ok { id := c0.id, name := b.name, email := b.email }
      ∧ (Copiloting.update_customer cs cid b).2
          = cs.set i { id := c0.id, name := b.name, email := b.email }
      ∧ ∀ j, j ≠ i →
          (Copiloting.update_customer cs cid b).2.get? j = cs.get? j := by
  rcases updateFirst_spec cid b cs h with ⟨i, c0, hget, hc0, heq⟩
  refine ⟨i, c0, hget, hc0, ?_, ?_, ?_⟩
  · rw [Copiloting.update_customer, heq]
    rfl
  · rw [Copiloting.update_customer, heq]
    rfl
  · intro j hj
    rw [Copiloting.update_customer, heq]
    exact List.get?_set_ne _ _ (fun hij => hj hij.symm)

/-- C10 witness: updating id 2 of the two-row sample table rewrites only that
row's name and email, keeps its id, and leaves row 0 untouched. -/
theorem cop_update_customer_frame_witness :
    ∃ i c0, copStore.get? i = some c0 ∧ c0.id = 2
      ∧ (Copiloting.update_customer copStore 2 copBase).1
          = .ok { id := c0.id, name := copBase.name, email := copBase.email }
      ∧ (Copiloting.update_customer copStore 2 copBase).2
          = copStore.set i { id := c0.id, name := copBase.name
                             email := copBase.email }
      ∧ ∀ j, j ≠ i →
          (Copiloting.update_customer copStore 2 copBase).2.get? j
            = copStore.get? j :=
  cop_update_customer_frame copStore 2 copBase
    ⟨{ id := 2, name := "Ben", email := "ben@example.com" },
     by simp [copStore], rfl⟩

end IntroApp
